import Mathlib

/-!
Shallow embedding of the goidgames repository (Go client for the idgames
archive API plus a terminal browser) and proofs about the claims of its
specification.

Conventions of the embedding:
* Go strings are Lean `String`s; Go byte-length `len(s)` is `String.utf8ByteSize`.
* Go multiple returns `(v, error)` become pairs; a Go `error` value is
  `Option GoError` (`none` = nil).
* Go slices that the source distinguishes from `nil` are `Option (List α)`
  (`none` = nil slice); where nil-ness is irrelevant plain `List` is used.
* `float32 Rating` is modelled as `ℚ`: the source only ever compares ratings
  with `>`, and the IEEE order on the (finite, non-NaN) float values produced
  by the API embeds order-faithfully into `ℚ`.
* Network and JSON-codec effects are oracle parameters (`structure ...Env`):
  each oracle field records the outcome the corresponding stdlib call would
  produce (including the value a failed `json.Unmarshal` leaves behind).
* `uint64` arithmetic is `Nat` taken `% 2 ^ 64`.
-/

namespace Goidgames

/-- Error values flowing through the Go code. `unmarshalTypeError` stands for
`*json.UnmarshalTypeError` (the one case the decode fallback distinguishes);
`otherDecodeError` for every other `json.Unmarshal` failure; `errorf` for
errors built with `fmt.Errorf`. -/
inductive GoError where
  | unmarshalTypeError (msg : String)
  | otherDecodeError (msg : String)
  | errorf (msg : String)
deriving DecidableEq

/-- Discriminates the `case *json.UnmarshalTypeError` arm of the decode
fallback switch in `Search` / `LatestFiles`. -/
def GoError.isUnmarshalTypeError : GoError → Bool
  | .unmarshalTypeError _ => true
  | _ => false

/-- `Review` struct from the source: a single review of an idgames file. -/
structure Review where
  Text : String
  Vote : Int
  Username : String
deriving DecidableEq

/-- `Idgame` struct from the source: metadata for one archived file. -/
structure Idgame where
  Id : Int
  Title : String
  Dir : String
  Filename : String
  Size : Int
  Age : Int
  Date : String
  Author : String
  Email : String
  Description : String
  Credits : String
  Base : String
  Buildtime : String
  Editors : String
  Bugs : String
  Textfile : String
  Rating : ℚ
  Votes : Int
  Url : String
  Idgamesurl : String
  Reviews : List Review
deriving DecidableEq

/-- The Go zero value of `Idgame` (what `var g Idgame` starts as). -/
def zeroIdgame : Idgame :=
  { Id := 0, Title := "", Dir := "", Filename := "", Size := 0, Age := 0,
    Date := "", Author := "", Email := "", Description := "", Credits := "",
    Base := "", Buildtime := "", Editors := "", Bugs := "", Textfile := "",
    Rating := 0, Votes := 0, Url := "", Idgamesurl := "", Reviews := [] }

/-- The package-level `Mirrors` variable: the fixed ordered mirror list. -/
def Mirrors : List String :=
  ["https://www.quaddicted.com/files/idgames",
   "https://ftpmirror1.infania.net/pub/idgames"]

/-! ## WriteCounter (download progress sink) -/

/-- `2 ^ 64`, the modulus of the `uint64` field `WriteCounter.Total`. -/
def U64 : Nat := 2 ^ 64

/-- One `WriteCounter.Write` call: `wc.Total += uint64(len(p))` in `uint64`
arithmetic. Only the chunk length matters, so a chunk is its length. -/
def wcWrite (total n : Nat) : Nat := (total + n) % U64

/-- The sequence of `Total` values published by `PrintProgress` after each
`Write` call, starting from counter value `total`, for the given chunk
lengths (the counter is freshly zeroed per download attempt). -/
def wcRun (total : Nat) : List Nat → List Nat
  | [] => []
  | n :: ns => wcWrite total n :: wcRun (wcWrite total n) ns

/-- Ideal (overflow-free) cumulative sums, for comparison with `wcRun`. -/
def cumSum (total : Nat) : List Nat → List Nat
  | [] => []
  | n :: ns => (total + n) :: cumSum (total + n) ns

/-! ## Download manager (`Idgame.DownloadTo`) -/

/-- Oracle for the effects of one `DownloadTo` call. Each field gives the
outcome of the corresponding stdlib call, keyed by the mirror base URL for
the per-attempt stages (`none` = the call succeeded):
`mkdirAll` — `os.MkdirAll(path, 0755)`;
`httpGet m` — `http.Get(mirror/Dir/Filename)` for mirror `m`;
`createFile m` — `os.Create(filepath.Join(path, Filename))` during the
attempt on mirror `m`;
`copyStream m` — the `io.Copy` of the response body during the attempt on
mirror `m`. -/
structure DownloadEnv where
  mkdirAll : Option GoError
  httpGet : String → Option GoError
  createFile : String → Option GoError
  copyStream : String → Option GoError

/-- An attempt on mirror `m` succeeds when all three stages succeed; any
stage failing sends the loop to the next mirror. -/
def mirrorAttemptSucceeds (env : DownloadEnv) (m : String) : Bool :=
  (env.httpGet m).isNone && (env.createFile m).isNone && (env.copyStream m).isNone

/-- The `for _, mirror := range Mirrors` loop of `DownloadTo`, translated
over an explicit mirror list. Returns (`success`, list of mirrors attempted,
in order): `http.Get` failure and `os.Create` failure `continue`; an
`io.Copy` error falls through to the next iteration; a clean copy sets
`success = true` and `break`s. -/
def downloadLoop (env : DownloadEnv) : List String → Bool × List String
  | [] => (false, [])
  | m :: rest =>
    if (env.httpGet m).isSome then
      let r := downloadLoop env rest
      (r.1, m :: r.2)
    else if (env.createFile m).isSome then
      let r := downloadLoop env rest
      (r.1, m :: r.2)
    else
      match env.copyStream m with
      | none => (true, [m])
      | some _ =>
        let r := downloadLoop env rest
        (r.1, m :: r.2)

/-- `Idgame.DownloadTo`. The named return `filePath` is never assigned in the
source body, so the success branch `return filePath, nil` returns the empty
string. Failure of `os.MkdirAll` returns that error immediately; if no mirror
succeeds it returns the `fmt.Errorf` exhaustion error. -/
def Idgame.DownloadTo (g : Idgame) (path : String) (env : DownloadEnv) :
    String × Option GoError :=
  let filePath : String := ""
  match env.mkdirAll with
  | some e => ("", some e)
  | none =>
    if (downloadLoop env Mirrors).1 then (filePath, none)
    else ("", some (GoError.errorf "Unable to download."))

/-! ## Metadata client: `Get` -/

/-- Oracle for one `Get(id, filepath)` call.
`respData` — result of `getResponseData` (transport failure or raw body);
`unmarshalGame` — the value `g` holds after `json.Unmarshal(content, &g)`
together with that call's (discarded) error;
`unmarshalReviews` — the value `g.Reviews` holds after
`json.Unmarshal(reviews.review, &g.Reviews)` together with that call's
(discarded) error. A failed `Unmarshal` may leave its target partially
written; the oracle's value field records whatever it leaves behind. -/
structure GetEnv where
  respData : Except GoError String
  unmarshalGame : Idgame × Option GoError
  unmarshalReviews : List Review × Option GoError

/-- `Get`: on transport failure, returns the zero record and that error;
otherwise the record left by the two `json.Unmarshal` calls, whose error
results the source discards, and a nil error. -/
def Get (env : GetEnv) : Idgame × Option GoError :=
  match env.respData with
  | .error e => (zeroIdgame, some e)
  | .ok _ =>
    let g := env.unmarshalGame.1
    ({ g with Reviews := env.unmarshalReviews.1 }, none)

/-! ## Metadata client: `Search` / `LatestFiles` -/

/-- Oracle for one `Search` or `LatestFiles` call.
`respData` — result of `getResponseData`;
`unmarshalArr` — the value `idgames` holds after
`json.Unmarshal(content.file, &idgames)` (a nil or non-nil slice) together
with that call's error;
`unmarshalOne` — the value and error of the fallback
`json.Unmarshal(content.file, &idgames[0])`. -/
structure SearchEnv where
  respData : Except GoError String
  unmarshalArr : Option (List Idgame) × Option GoError
  unmarshalOne : Idgame × Option GoError

/-- The `content.file` decode logic shared verbatim by `Search` and
`LatestFiles`: try the array decode; on `*json.UnmarshalTypeError` redo the
decode as a single object into `make([]Idgame, 1)`; any other error is
returned with whatever slice the failed array decode left. -/
def decodeContentFile (env : SearchEnv) : Option (List Idgame) × Option GoError :=
  match env.unmarshalArr with
  | (l, none) => (l, none)
  | (l, some e) =>
    match e with
    | .unmarshalTypeError _ => (some [env.unmarshalOne.1], env.unmarshalOne.2)
    | _ => (l, some e)

/-- `Search(query, searchType, sort, sortOrder)`: rejects queries shorter
than 3 bytes before any network call; propagates transport errors with a nil
slice; otherwise decodes `content.file`. The `searchType`, `sort` and
`sortOrder` parameters only shape the request URL, whose response the oracle
already fixes, so they do not influence the result here. -/
def Search (env : SearchEnv) (query searchType sort sortOrder : String) :
    Option (List Idgame) × Option GoError :=
  if query.utf8ByteSize < 3 then
    (none, some (GoError.errorf "Query must at least be 3 characters."))
  else
    match env.respData with
    | .error e => (none, some e)
    | .ok _ => decodeContentFile env

/-- `LatestFiles(limit, startid)`: `limit` and `startid` only shape the
request URL; the response decode is the same `content.file` logic as
`Search`. -/
def LatestFiles (env : SearchEnv) (limit startid : Int) :
    Option (List Idgame) × Option GoError :=
  match env.respData with
  | .error e => (none, some e)
  | .ok _ => decodeContentFile env

/-! ## Search aggregator: `SearchMultipleTypes` -/

/-- The comparator closure passed to `sort.Slice`:
`idgames[i].Rating > idgames[j].Rating`. -/
def ratingLess (a b : Idgame) : Bool := decide (b.Rating < a.Rating)

/-- Sortedness in the sense guaranteed by `sort.Slice` for this comparator:
no later element has a strictly greater rating, i.e. ratings are
non-increasing. -/
def sortedByRatingDesc (l : List Idgame) : Prop :=
  List.Pairwise (fun a b => ¬ a.Rating < b.Rating) l

instance (l : List Idgame) : Decidable (sortedByRatingDesc l) :=
  List.instDecidablePairwise l

/-- The contract of the `sort.Slice` call in `SearchMultipleTypes`: the Go
documentation guarantees only that the slice ends up sorted by the given
less function and explicitly does not guarantee stability, so the permitted
outcomes are exactly the rating-non-increasing permutations of the input. -/
def sortSliceRel (l out : List Idgame) : Prop :=
  out.Perm l ∧ sortedByRatingDesc out

instance (l out : List Idgame) : Decidable (sortSliceRel l out) :=
  instDecidableAnd

/-- The aggregation loop of `SearchMultipleTypes`: for each search type `t`,
`tmp, _ := Search(query, t, sorting, sortOrder)` (error discarded; on error
`tmp` is nil) and `idgames = append(idgames, tmp...)` when `len(tmp) > 0`.
The oracle `envF` gives the `Search` environment for each search type. -/
def gatherSearchResults (envF : String → SearchEnv)
    (query sorting sortOrder : String) : List String → List Idgame
  | [] => []
  | t :: ts =>
    let tmp := ((Search (envF t) query t sorting sortOrder).1).getD []
    (if 0 < tmp.length then tmp else []) ++
      gatherSearchResults envF query sorting sortOrder ts

/-- `SearchMultipleTypes(query, searchTypes, sorting, sortOrder)` as a
relation between its inputs and its returned `(idgames, err)` pair: the
gathered results, reordered in any way `sort.Slice` permits (`sortSliceRel`),
wrapped as a non-nil slice; the named error return is never assigned, so it
is nil. -/
def SearchMultipleTypes (envF : String → SearchEnv) (query : String)
    (searchTypes : List String) (sorting sortOrder : String)
    (out : Option (List Idgame) × Option GoError) : Prop :=
  ∃ l, sortSliceRel (gatherSearchResults envF query sorting sortOrder searchTypes) l ∧
    out = (some l, none)

/-! ## The concrete `sort.Slice` algorithm of Go 1.8–1.18 for short slices

For a slice of length at most 12, `sort.Slice` in every Go release from 1.8
(when it was introduced) through 1.18 runs `quickSort_func`, whose recursion
guard `b-a > 12` immediately fails, leaving exactly: one shell-sort pass with
gap 6 (`for i := a+6; i < b; i++ { if less(i, i-6) { swap(i, i-6) } }`)
followed by a plain insertion sort. The gap-6 pass may move an element past
equal-rated elements, which is the concrete source of the unstable tie-break
exhibited below. -/

/-- Swap positions `i` and `j` of a list (in-bounds positions only;
`List.set` ignores out-of-range indices like the generated Go swap never
sees them). -/
def lswap (l : List Idgame) (i j : Nat) : List Idgame :=
  let x := l.getD i zeroIdgame
  let y := l.getD j zeroIdgame
  (l.set i y).set j x

/-- The gap-6 shell pass of `quickSort_func` on a whole short slice. -/
def shellPass6 (l : List Idgame) : List Idgame :=
  (List.range l.length).foldl
    (fun acc i =>
      if 6 ≤ i then
        if ratingLess (acc.getD i zeroIdgame) (acc.getD (i - 6) zeroIdgame) then
          lswap acc i (i - 6)
        else acc
      else acc)
    l

/-- Inner loop of `insertionSort_func`: starting at position `j`, swap
downwards while the element is less (by the comparator) than its left
neighbour. -/
def insertInner (l : List Idgame) : Nat → List Idgame
  | 0 => l
  | j + 1 =>
    if ratingLess (l.getD (j + 1) zeroIdgame) (l.getD j zeroIdgame) then
      insertInner (lswap l (j + 1) j) j
    else l

/-- `insertionSort_func` over the whole slice (`for i := a+1; i < b; i++`). -/
def insertionSortGo (l : List Idgame) : List Idgame :=
  (List.range l.length).foldl
    (fun acc i => if 1 ≤ i then insertInner acc i else acc) l

/-- `sort.Slice` of Go 1.8–1.18 on a slice of length ≤ 12, with the
`SearchMultipleTypes` rating comparator: shell pass with gap 6, then
insertion sort. -/
def goSortSliceLe12 (l : List Idgame) : List Idgame :=
  insertionSortGo (shellPass6 l)

/-! ## Detail backfill: `updateGameDetails` -/

/-- `updateGameDetails(idgames)`: for each index, `g, err :=
Get(idgames[i].Id, "")`; on error `continue` (entry untouched), otherwise
`idgames[i] = g`. The oracle maps each record id to the `Get` environment of
its fetch. The function models the in-place mutation by returning the final
list; the source raises no error. -/
def updateGameDetails (oracle : Int → GetEnv) : List Idgame → List Idgame
  | [] => []
  | g :: rest =>
    let r := Get (oracle g.Id)
    (match r.2 with
     | some _ => g
     | none => r.1) :: updateGameDetails oracle rest

/-! ## Browser result-list ownership (`UpdateSearch` / `updateGameDetails`)

`UpdateSearch` / `UpdateLatest` run, on the UI thread, one closure that (a)
obtains a freshly allocated slice from `SearchMultipleTypes` /
`LatestFiles` (both build their result in a new backing array), (b) spawns
`go updateGameDetails(idgames)` over exactly that slice, and (c) stores that
slice as `browser.idgames` via `populateList`. A backfill goroutine mutates
elements only through the slice header it was handed. We model the backing
arrays as a heap indexed by allocation order: `newResults` allocates the next
index, makes it current and registers its backfill task; `backfillWrite a i g`
is one `idgames[i] = g` step of the task holding array `a`. -/

structure BrowserModel where
  heap : List (List Idgame)
  current : Nat
  tasks : List Nat

inductive BrowserAction where
  | newResults (l : List Idgame)
  | backfillWrite (a : Nat) (i : Nat) (g : Idgame)

/-- One transition of the browser model. A `backfillWrite` by a task that
does not exist is a no-op. -/
def browserStep (s : BrowserModel) : BrowserAction → BrowserModel
  | .newResults l =>
    { heap := s.heap ++ [l], current := s.heap.length,
      tasks := s.tasks ++ [s.heap.length] }
  | .backfillWrite a i g =>
    if a ∈ s.tasks then
      { s with heap := s.heap.set a ((s.heap.getD a []).set i g) }
    else s

/-- The result list the browser currently displays (`browser.idgames`). -/
def currentView (s : BrowserModel) : List Idgame :=
  s.heap.getD s.current []

/-- Well-formedness: the current list and every task's array live in the
heap. Holds for the initial state and is preserved by every step. -/
def BrowserWF (s : BrowserModel) : Prop :=
  s.current < s.heap.length ∧ ∀ t ∈ s.tasks, t < s.heap.length

/-! ## Concrete instances used in counterexamples and witnesses -/

/-- A download environment in which every stage of every attempt succeeds. -/
def envAllOk : DownloadEnv :=
  { mkdirAll := none, httpGet := fun _ => none, createFile := fun _ => none,
    copyStream := fun _ => none }

/-- A download environment in which every mirror fails (connection refused on
each `http.Get`). -/
def envAllFail : DownloadEnv :=
  { mkdirAll := none,
    httpGet := fun _ => some (GoError.errorf "connection refused"),
    createFile := fun _ => none, copyStream := fun _ => none }

/-- A sample record with a resolvable download path. -/
def sampleGame : Idgame :=
  { zeroIdgame with Id := 12, Dir := "levels/doom/d-f", Filename := "FOO.zip" }

/-- A record differing from the zero record only in id and rating. -/
def mkG (id : Int) (rating : ℚ) : Idgame :=
  { zeroIdgame with Id := id, Rating := rating }

def gA : Idgame := mkG 0 3
def gB : Idgame := mkG 1 3
def gC : Idgame := mkG 2 0
def gD : Idgame := mkG 3 0
def gE : Idgame := mkG 4 0
def gF : Idgame := mkG 5 0
def gG : Idgame := mkG 6 5
def gH : Idgame := mkG 7 0

/-- Eight records as one per-field search result; the two rating-3 records
`gA`, `gB` are the equal-rating pair whose order the sort flips. -/
def in8 : List Idgame := [gA, gB, gC, gD, gE, gF, gG, gH]

/-- What Go 1.8–1.18 `sort.Slice` makes of `in8`: the gap-6 shell pass swaps
`gG` (rating 5, position 6) with `gA` (rating 3, position 0), carrying `gA`
past the equal-rated `gB`; the subsequent stable insertion sort keeps `gB`
before `gA`. -/
def out8 : List Idgame := [gG, gB, gA, gC, gD, gE, gF, gH]

/-- Search oracle returning `in8` as the decoded array for every field. -/
def envF8 : String → SearchEnv := fun _ =>
  { respData := .ok "ok-body", unmarshalArr := (some in8, none),
    unmarshalOne := (zeroIdgame, none) }

/-- Search oracle where field "title" succeeds with one record and every
other field fails with a transport error. -/
def envFMixed : String → SearchEnv := fun t =>
  if t = "title" then
    { respData := .ok "ok-body", unmarshalArr := (some [sampleGame], none),
      unmarshalOne := (zeroIdgame, none) }
  else
    { respData := .error (GoError.errorf "Could not connect to idgames: refused"),
      unmarshalArr := (none, none), unmarshalOne := (zeroIdgame, none) }

/-- Search oracle where every field fails with a transport error. -/
def envFAllFail : String → SearchEnv := fun _ =>
  { respData := .error (GoError.errorf "Could not connect to idgames: refused"),
    unmarshalArr := (none, none), unmarshalOne := (zeroIdgame, none) }

/-- Search oracle for a field whose `content.file` is a scalar: the array
decode fails with `*json.UnmarshalTypeError`, triggering the fallback
`idgames = make([]Idgame, 1)`, and the single-object decode into
`idgames[0]` also fails after partially filling the record — so `Search`
returns a one-element slice together with a non-nil error. -/
def envFPartial : String → SearchEnv := fun _ =>
  { respData := .ok "ok-body",
    unmarshalArr := (none, some (GoError.unmarshalTypeError "object into slice")),
    unmarshalOne := (mkG 99 2, some (GoError.otherDecodeError "bad review field")) }

/-- A `Get` environment whose transport read succeeds but whose record
payload is malformed: the record unmarshal reports a decode error (which the
source discards). -/
def getEnvBadPayload : GetEnv :=
  { respData := .ok "this is not json",
    unmarshalGame := (zeroIdgame,
      some (GoError.otherDecodeError "invalid character t looking for beginning of value")),
    unmarshalReviews := ([], some (GoError.otherDecodeError "unexpected end of JSON input")) }

/-- A `Search`/`LatestFiles` environment whose `content.file` is a single
object: the array decode fails with `*json.UnmarshalTypeError` and the
single-object decode succeeds. -/
def envSingleObject : SearchEnv :=
  { respData := .ok "ok-body",
    unmarshalArr := (none, some (GoError.unmarshalTypeError "object into slice")),
    unmarshalOne := (sampleGame, none) }

/-- A per-id `Get` oracle for the backfill: id 12 fetches successfully to a
detailed record, every other id fails with a transport error. -/
def backfillOracle : Int → GetEnv := fun id =>
  if id = 12 then
    { respData := .ok "ok-body",
      unmarshalGame := ({ sampleGame with Textfile := "full text" }, none),
      unmarshalReviews := ([{ Text := "nice", Vote := 5, Username := "" }], none) }
  else
    { respData := .error (GoError.errorf "Could not connect to idgames: refused"),
      unmarshalGame := (zeroIdgame, none), unmarshalReviews := ([], none) }

/-- A well-formed browser state: two allocated result lists, the second one
current, both generations' backfill tasks still in flight (task 0 is
stale). -/
def browserS0 : BrowserModel :=
  { heap := [[gA], [gB, gC]], current := 1, tasks := [0, 1] }

/-! ## Helper lemmas -/

/-- Closed form of the mirror loop: the loop succeeds iff some mirror's
attempt succeeds, and the attempted mirrors are exactly the failing ones up
to, and then possibly including, the first succeeding one. -/
theorem downloadLoop_eq (env : DownloadEnv) (ms : List String) :
    downloadLoop env ms =
      (ms.any (mirrorAttemptSucceeds env),
       ms.takeWhile (fun m => !mirrorAttemptSucceeds env m) ++
         (ms.dropWhile (fun m => !mirrorAttemptSucceeds env m)).take 1) := by
  induction ms with
  | nil => rfl
  | cons m rest ih =>
    rcases hg : env.httpGet m with _ | e1
    · rcases hc : env.createFile m with _ | e2
      · rcases hs : env.copyStream m with _ | e3
        · simp [downloadLoop, mirrorAttemptSucceeds, hg, hc, hs]
        · simp [downloadLoop, mirrorAttemptSucceeds, hg, hc, hs, ih]
      · simp [downloadLoop, mirrorAttemptSucceeds, hg, hc, ih]
    · simp [downloadLoop, mirrorAttemptSucceeds, hg, ih]

/-- The attempted-mirror list is a sublist of the mirror list. -/
theorem downloadLoop_attempted_sublist (env : DownloadEnv) (ms : List String) :
    ((downloadLoop env ms).2).Sublist ms := by
  rw [downloadLoop_eq]
  have h1 : (ms.takeWhile (fun m => !mirrorAttemptSucceeds env m) ++
      (ms.dropWhile (fun m => !mirrorAttemptSucceeds env m)).take 1).Sublist
      (ms.takeWhile (fun m => !mirrorAttemptSucceeds env m) ++
        ms.dropWhile (fun m => !mirrorAttemptSucceeds env m)) :=
    List.Sublist.append_left
      (List.take_sublist 1 (ms.dropWhile (fun m => !mirrorAttemptSucceeds env m))) _
  rwa [List.takeWhile_append_dropWhile] at h1

/-- With no overflow, the write counter's published totals are the exact
cumulative sums. -/
theorem wcRun_eq_cumSum (total : Nat) (chunks : List Nat)
    (h : total + chunks.sum < U64) : wcRun total chunks = cumSum total chunks := by
  induction chunks generalizing total with
  | nil => rfl
  | cons n ns ih =>
    simp only [List.sum_cons] at h
    have h1 : total + n < U64 := by omega
    have h2 : wcWrite total n = total + n := Nat.mod_eq_of_lt h1
    simp only [wcRun, cumSum, h2]
    exact congrArg _ (ih (total + n) (by omega))

/-- Cumulative sums grow monotonically from the starting total. -/
theorem cumSum_chain (total : Nat) (chunks : List Nat) :
    List.Chain (· ≤ ·) total (cumSum total chunks) := by
  induction chunks generalizing total with
  | nil => exact List.Chain.nil
  | cons n ns ih => exact List.Chain.cons (Nat.le_add_right total n) (ih (total + n))

/-- Consecutive published totals are non-decreasing. -/
theorem cumSum_chain_le (total : Nat) (chunks : List Nat) :
    List.Chain' (· ≤ ·) (cumSum total chunks) :=
  List.Chain'.tail (l := total :: cumSum total chunks) (cumSum_chain total chunks)

/-- The last cumulative sum is the grand total. -/
theorem cumSum_getLast (total : Nat) (chunks : List Nat) (h : chunks ≠ []) :
    (cumSum total chunks).getLast? = some (total + chunks.sum) := by
  induction chunks generalizing total with
  | nil => cases h rfl
  | cons n ns ih =>
    cases ns with
    | nil => simp [cumSum]
    | cons m ms =>
      have h2 : cumSum total (n :: m :: ms) =
          (total + n) :: cumSum (total + n) (m :: ms) := rfl
      have h3 : cumSum (total + n) (m :: ms) =
          (total + n + m) :: cumSum (total + n + m) ms := rfl
      rw [h2, h3, List.getLast?_cons_cons, ← h3, ih (total + n) (by simp)]
      simp [List.sum_cons, Nat.add_assoc]

/-- One cumulative sum is published per chunk. -/
theorem cumSum_length (total : Nat) (chunks : List Nat) :
    (cumSum total chunks).length = chunks.length := by
  induction chunks generalizing total with
  | nil => rfl
  | cons n ns ih => simp [cumSum, ih]

/-- The aggregation loop is the plain concatenation of the per-field results
(the `len(tmp) > 0` guard is vacuous: appending an empty slice is the
identity). -/
theorem gather_eq_flatten (envF : String → SearchEnv)
    (query sorting sortOrder : String) (ts : List String) :
    gatherSearchResults envF query sorting sortOrder ts =
      (ts.map (fun t => ((Search (envF t) query t sorting sortOrder).1).getD [])).flatten := by
  induction ts with
  | nil => rfl
  | cons t ts ih =>
    simp only [gatherSearchResults, List.map_cons, List.flatten_cons, ih]
    by_cases h : 0 < (((Search (envF t) query t sorting sortOrder).1).getD []).length
    · simp [h]
    · have h2 : ((Search (envF t) query t sorting sortOrder).1).getD [] = [] := by
        cases hx : ((Search (envF t) query t sorting sortOrder).1).getD [] with
        | nil => rfl
        | cons a l => rw [hx] at h; simp at h
      simp [h2]

/-! ## Claim theorems -/

/-- C1 (code_bug evidence): on a record with filename FOO.zip, destination
directory dl and a first mirror that completes the streamed copy,
`DownloadTo` returns a nil error but the empty string, not the resolved
local path dl/FOO.zip: the named return `filePath` is never assigned,
contradicting the function's own doc comment ("returns the full path of the
downloaded file"). -/
theorem downloadTo_success_returns_empty_path :
    sampleGame.DownloadTo "dl" envAllOk = ("", none) ∧
      ("dl" ++ "/" ++ sampleGame.Filename ≠ "") := by
  refine ⟨rfl, ?_⟩
  intro h
  simp [sampleGame] at h

/-- C4: with the destination directory created successfully, `DownloadTo`
(1) returns a non-nil error iff the attempt on every configured mirror
fails, (2) that error is the `fmt.Errorf` exhaustion error, (3) the mirrors
attempted are exactly, in list order, the failing ones up to the first
succeeding mirror plus that mirror itself (so a failure at any stage moves
on silently and no mirror after the first success is attempted), and
(4) no mirror is attempted twice. -/
theorem downloadTo_mirror_fallback (env : DownloadEnv) (g : Idgame)
    (path : String) (h : env.mkdirAll = none) :
    (((g.DownloadTo path env).2.isSome = true) ↔
        ∀ m ∈ Mirrors, mirrorAttemptSucceeds env m = false)
  ∧ ((g.DownloadTo path env).2.isSome = true →
        g.DownloadTo path env = ("", some (GoError.errorf "Unable to download.")))
  ∧ (downloadLoop env Mirrors).2 =
      Mirrors.takeWhile (fun m => !mirrorAttemptSucceeds env m) ++
        (Mirrors.dropWhile (fun m => !mirrorAttemptSucceeds env m)).take 1
  ∧ ((downloadLoop env Mirrors).2).Nodup := by
  have hloop := downloadLoop_eq env Mirrors
  have hnodup : ((downloadLoop env Mirrors).2).Nodup :=
    List.Nodup.sublist (downloadLoop_attempted_sublist env Mirrors)
      (by decide : Mirrors.Nodup)
  have hdl : g.DownloadTo path env =
      (if Mirrors.any (mirrorAttemptSucceeds env) then (("" : String), (none : Option GoError))
       else ("", some (GoError.errorf "Unable to download."))) := by
    unfold Idgame.DownloadTo
    rw [h, hloop]
  refine ⟨?_, ?_, by rw [hloop], hnodup⟩
  · rw [hdl]
    cases hany : Mirrors.any (mirrorAttemptSucceeds env) with
    | true =>
      rw [if_pos rfl]
      simp only [Option.isSome_none, Bool.false_eq_true, false_iff]
      intro hall
      rw [List.any_eq_true] at hany
      obtain ⟨m, hm, hsucc⟩ := hany
      simp [hall m hm] at hsucc
    | false =>
      rw [if_neg (by simp)]
      simp only [Option.isSome_some, true_iff]
      rw [List.any_eq_false] at hany
      intro m hm
      simpa using hany m hm
  · rw [hdl]
    cases hany : Mirrors.any (mirrorAttemptSucceeds env) with
    | true =>
      rw [if_pos rfl]
      simp
    | false =>
      rw [if_neg (by simp)]
      intro _
      rfl

/-- C4 witness: in the all-stages-succeed environment, the hypotheses of
`downloadTo_mirror_fallback` hold and so does its conclusion. -/
theorem downloadTo_mirror_fallback_witness :
    envAllOk.mkdirAll = none
  ∧ ((((sampleGame.DownloadTo "dl" envAllOk).2.isSome = true) ↔
        ∀ m ∈ Mirrors, mirrorAttemptSucceeds envAllOk m = false)
    ∧ ((sampleGame.DownloadTo "dl" envAllOk).2.isSome = true →
          sampleGame.DownloadTo "dl" envAllOk =
            ("", some (GoError.errorf "Unable to download.")))
    ∧ (downloadLoop envAllOk Mirrors).2 =
        Mirrors.takeWhile (fun m => !mirrorAttemptSucceeds envAllOk m) ++
          (Mirrors.dropWhile (fun m => !mirrorAttemptSucceeds envAllOk m)).take 1
    ∧ ((downloadLoop envAllOk Mirrors).2).Nodup) :=
  ⟨rfl, downloadTo_mirror_fallback envAllOk sampleGame "dl" rfl⟩

/-- C8: starting from a fresh counter, as long as the total byte count fits
in `uint64`, the published cumulative totals are non-decreasing, one is
published per write chunk, and the final published total equals the total
number of bytes written. -/
theorem writeCounter_monotone_complete (chunks : List Nat)
    (h : chunks.sum < U64) :
    List.Chain' (· ≤ ·) (wcRun 0 chunks)
  ∧ (wcRun 0 chunks).length = chunks.length
  ∧ (chunks ≠ [] → (wcRun 0 chunks).getLast? = some chunks.sum) := by
  have he : wcRun 0 chunks = cumSum 0 chunks :=
    wcRun_eq_cumSum 0 chunks (by omega)
  rw [he]
  refine ⟨cumSum_chain_le 0 chunks, cumSum_length 0 chunks, fun hne => ?_⟩
  rw [cumSum_getLast 0 chunks hne]
  simp

/-- C8 witness: three chunks of 5, 7 and 11 bytes fit in `uint64` and the
published totals behave as `writeCounter_monotone_complete` states. -/
theorem writeCounter_monotone_complete_witness :
    ([5, 7, 11] : List Nat).sum < U64
  ∧ (List.Chain' (· ≤ ·) (wcRun 0 [5, 7, 11])
    ∧ (wcRun 0 [5, 7, 11]).length = ([5, 7, 11] : List Nat).length
    ∧ (([5, 7, 11] : List Nat) ≠ [] →
        (wcRun 0 [5, 7, 11]).getLast? = some ([5, 7, 11] : List Nat).sum)) :=
  ⟨by decide, writeCounter_monotone_complete [5, 7, 11] (by decide)⟩

/-- C3 counterexample: a transport read that succeeds but whose record
payload is malformed makes the record unmarshal fail, yet `Get` returns a
nil error — the source discards both `json.Unmarshal` results, so decode
errors never surface to the caller. -/
theorem get_swallows_decode_error :
    (Get getEnvBadPayload).2 = none ∧ getEnvBadPayload.unmarshalGame.2 ≠ none := by
  refine ⟨rfl, ?_⟩
  intro hcon
  simp [getEnvBadPayload] at hcon

/-- C3 amended: whenever the HTTP response body is read successfully, `Get`
returns a nil error regardless of any record or review decode failure (both
`json.Unmarshal` error results are discarded); the returned record is
whatever the two unmarshal calls left behind, so a review decode failure in
particular does not abort the record. -/
theorem get_error_independent_of_decode (env : GetEnv) (raw : String)
    (h : env.respData = .ok raw) :
    Get env = ({ env.unmarshalGame.1 with Reviews := env.unmarshalReviews.1 }, none) := by
  unfold Get
  rw [h]

/-- C3 witness: the amended statement evaluated on the malformed-payload
environment. -/
theorem get_error_independent_of_decode_witness :
    getEnvBadPayload.respData = .ok "this is not json"
  ∧ Get getEnvBadPayload =
      ({ getEnvBadPayload.unmarshalGame.1 with
          Reviews := getEnvBadPayload.unmarshalReviews.1 }, none) :=
  ⟨rfl, get_error_independent_of_decode getEnvBadPayload "this is not json" rfl⟩

/-- C5: for `Search` (with a valid query) and `LatestFiles`, when the
response body is read successfully: the array decode of `content.file` is
attempted first and its success is final; exactly a `*json.UnmarshalTypeError`
failure triggers the single-object re-decode, returned as a one-element
sequence (with that decode's own error result); every other decode error is
returned to the caller unchanged. -/
theorem search_latest_decode_rule (env : SearchEnv)
    (query searchType sort1 sortOrder : String) (limit startid : Int)
    (raw : String) (hresp : env.respData = .ok raw)
    (hq : 3 ≤ query.utf8ByteSize) :
    ((env.unmarshalArr.2 = none →
        Search env query searchType sort1 sortOrder = (env.unmarshalArr.1, none)
      ∧ LatestFiles env limit startid = (env.unmarshalArr.1, none))
  ∧ (∀ e, env.unmarshalArr.2 = some e → e.isUnmarshalTypeError = true →
        Search env query searchType sort1 sortOrder =
          (some [env.unmarshalOne.1], env.unmarshalOne.2)
      ∧ LatestFiles env limit startid =
          (some [env.unmarshalOne.1], env.unmarshalOne.2))
  ∧ (∀ e, env.unmarshalArr.2 = some e → e.isUnmarshalTypeError = false →
        (Search env query searchType sort1 sortOrder).2 = some e
      ∧ (LatestFiles env limit startid).2 = some e)) := by
  have hs : Search env query searchType sort1 sortOrder = decodeContentFile env := by
    unfold Search
    rw [if_neg (by omega), hresp]
  have hl : LatestFiles env limit startid = decodeContentFile env := by
    unfold LatestFiles
    rw [hresp]
  rw [hs, hl]
  rcases harr : env.unmarshalArr with ⟨l, e0⟩
  refine ⟨?_, ?_, ?_⟩
  · intro hnone
    have he0 : e0 = none := hnone
    subst he0
    constructor <;> simp [decodeContentFile, harr]
  · intro e hsome htype
    have he0 : e0 = some e := hsome
    subst he0
    cases e with
    | unmarshalTypeError msg =>
      constructor <;> simp [decodeContentFile, harr]
    | otherDecodeError msg => simp [GoError.isUnmarshalTypeError] at htype
    | errorf msg => simp [GoError.isUnmarshalTypeError] at htype
  · intro e hsome htype
    have he0 : e0 = some e := hsome
    subst he0
    cases e with
    | unmarshalTypeError msg => simp [GoError.isUnmarshalTypeError] at htype
    | otherDecodeError msg =>
      constructor <;> simp [decodeContentFile, harr]
    | errorf msg =>
      constructor <;> simp [decodeContentFile, harr]

/-- C5 witness: the decode rule evaluated on the single-object response
environment. -/
theorem search_latest_decode_rule_witness :
    envSingleObject.respData = .ok "ok-body"
  ∧ 3 ≤ ("zzz" : String).utf8ByteSize
  ∧ ((envSingleObject.unmarshalArr.2 = none →
        Search envSingleObject "zzz" "" "" "" = (envSingleObject.unmarshalArr.1, none)
      ∧ LatestFiles envSingleObject 10 0 = (envSingleObject.unmarshalArr.1, none))
    ∧ (∀ e, envSingleObject.unmarshalArr.2 = some e → e.isUnmarshalTypeError = true →
        Search envSingleObject "zzz" "" "" "" =
          (some [envSingleObject.unmarshalOne.1], envSingleObject.unmarshalOne.2)
      ∧ LatestFiles envSingleObject 10 0 =
          (some [envSingleObject.unmarshalOne.1], envSingleObject.unmarshalOne.2))
    ∧ (∀ e, envSingleObject.unmarshalArr.2 = some e → e.isUnmarshalTypeError = false →
        (Search envSingleObject "zzz" "" "" "").2 = some e
      ∧ (LatestFiles envSingleObject 10 0).2 = some e)) :=
  ⟨rfl, by decide,
    search_latest_decode_rule envSingleObject "zzz" "" "" "" 10 0 "ok-body" rfl (by decide)⟩

/-- C7: `updateGameDetails` maps each entry independently: the result has
the same length and order, and at each position holds the record fetched
via `Get` for that entry's id when the fetch returned a nil error, and the
untouched original entry otherwise; the function raises no aggregate
error. -/
theorem updateGameDetails_pointwise (oracle : Int → GetEnv) (l : List Idgame) :
    updateGameDetails oracle l =
      l.map (fun g =>
        match (Get (oracle g.Id)).2 with
        | some _ => g
        | none => (Get (oracle g.Id)).1)
  ∧ (updateGameDetails oracle l).length = l.length := by
  have hmap : updateGameDetails oracle l =
      l.map (fun g =>
        match (Get (oracle g.Id)).2 with
        | some _ => g
        | none => (Get (oracle g.Id)).1) := by
    induction l with
    | nil => rfl
    | cons g rest ih =>
      simp only [updateGameDetails, List.map_cons]
      rw [ih]
  exact ⟨hmap, by rw [hmap, List.length_map]⟩

/-- C2 counterexample: with one field type returning the eight records
`in8`, the concatenation order puts the rating-3 record `gA` before the
equally rated `gB`, yet `out8` — the output Go 1.8–1.18 `sort.Slice`
actually produces on `in8`, and in any case a rating-descending permutation
the `sort.Slice` contract permits — has `gB` before `gA`: the tie-break is
not stable. -/
theorem searchMultipleTypes_tiebreak_counterexample :
    SearchMultipleTypes envF8 "abc" ["title"] "" "" (some out8, none)
  ∧ gatherSearchResults envF8 "abc" "" "" ["title"] = in8
  ∧ goSortSliceLe12 in8 = out8
  ∧ gA.Rating = gB.Rating
  ∧ in8.indexOf gA < in8.indexOf gB
  ∧ out8.indexOf gB < out8.indexOf gA :=
  ⟨⟨out8, by decide, rfl⟩, by decide, by decide, by decide, by decide, by decide⟩

/-- C2 amended: for every non-empty field-type list, every outcome of
`SearchMultipleTypes` is a permutation of the per-field concatenation whose
ratings are non-increasing position by position (sorted by rating
descending); the order among entries of equal rating is whatever the
unstable `sort.Slice` produced and is not guaranteed to follow the
concatenation order. -/
theorem searchMultipleTypes_sorted_desc (envF : String → SearchEnv)
    (query sorting sortOrder : String) (searchTypes : List String)
    (out : Option (List Idgame) × Option GoError)
    (hne : searchTypes ≠ [])
    (h : SearchMultipleTypes envF query searchTypes sorting sortOrder out) :
    ∃ l, out = (some l, none)
      ∧ (∀ (i j : Nat) (hi : i < l.length) (hj : j < l.length), i < j →
          (l.get ⟨j, hj⟩).Rating ≤ (l.get ⟨i, hi⟩).Rating)
      ∧ l.Perm (gatherSearchResults envF query sorting sortOrder searchTypes) := by
  obtain ⟨l, ⟨hperm, hsort⟩, hout⟩ := h
  refine ⟨l, hout, ?_, hperm⟩
  intro i j hi hj hij
  have hp := (List.pairwise_iff_get.mp hsort) ⟨i, hi⟩ ⟨j, hj⟩ hij
  exact le_of_not_lt hp

/-- C2 witness: the amended statement evaluated on the eight-record input
with `out8` as the sort outcome. -/
theorem searchMultipleTypes_sorted_desc_witness :
    (["title"] : List String) ≠ []
  ∧ SearchMultipleTypes envF8 "abc" ["title"] "" "" (some out8, none)
  ∧ (∃ l, (some out8, (none : Option GoError)) = (some l, none)
      ∧ (∀ (i j : Nat) (hi : i < l.length) (hj : j < l.length), i < j →
          (l.get ⟨j, hj⟩).Rating ≤ (l.get ⟨i, hi⟩).Rating)
      ∧ l.Perm (gatherSearchResults envF8 "abc" "" "" ["title"])) :=
  ⟨by decide, ⟨out8, by decide, rfl⟩,
    searchMultipleTypes_sorted_desc envF8 "abc" "" "" ["title"] (some out8, none)
      (by decide) ⟨out8, by decide, rfl⟩⟩

/-- C6 counterexample: with one field type whose `content.file` is a
scalar and whose single-object fallback decode also fails, the per-field
`Search` call fails (non-nil error) yet returns a populated one-element
slice, and `SearchMultipleTypes` appends it (`len(tmp) > 0` holds): the
failing field contributes one record, not zero, so the outcome's content is
not the concatenation of the succeeded calls (which here is empty). -/
theorem searchMultipleTypes_failed_field_contributes :
    SearchMultipleTypes envFPartial "abc" ["title"] "" "" (some [mkG 99 2], none)
  ∧ (Search (envFPartial "title") "abc" "title" "" "").2 ≠ none
  ∧ ([mkG 99 2] : List Idgame) ≠ [] :=
  ⟨⟨[mkG 99 2], by decide, rfl⟩, by decide, by decide⟩

/-- C6 amended: the content of every `SearchMultipleTypes` outcome is
exactly — as a multiset, i.e. up to the final sort's reordering and with
multiplicity, so without any de-duplication — the concatenation, in field
order, of the slices the per-field `Search` calls actually returned: a
field failing with a nil slice (validation or transport failure, or a
non-type-mismatch decode error on a nil result) contributes zero records,
a field failing through the single-object fallback contributes the one
record the fallback left behind, and no failure aborts the aggregation. -/
theorem searchMultipleTypes_content_concat (envF : String → SearchEnv)
    (query sorting sortOrder : String) (searchTypes : List String)
    (out : Option (List Idgame) × Option GoError)
    (h : SearchMultipleTypes envF query searchTypes sorting sortOrder out) :
    ∃ l, out.1 = some l ∧
      l.Perm ((searchTypes.map
        (fun t => ((Search (envF t) query t sorting sortOrder).1).getD [])).flatten) := by
  obtain ⟨l, ⟨hperm, _⟩, hout⟩ := h
  refine ⟨l, by rw [hout], ?_⟩
  rw [← gather_eq_flatten]
  exact hperm

/-- C6 witness: field "title" succeeds with one record, field "author"
fails; the outcome's content is exactly the successful field's single
record. -/
theorem searchMultipleTypes_content_concat_witness :
    SearchMultipleTypes envFMixed "abc" ["title", "author"] "" ""
      (some [sampleGame], none)
  ∧ (∃ l, (some [sampleGame], (none : Option GoError)).1 = some l ∧
      l.Perm ((["title", "author"].map
        (fun t => ((Search (envFMixed t) "abc" t "" "").1).getD [])).flatten)) :=
  ⟨⟨[sampleGame], by decide, rfl⟩,
    searchMultipleTypes_content_concat envFMixed "abc" "" "" ["title", "author"]
      (some [sampleGame], none) ⟨[sampleGame], by decide, rfl⟩⟩

/-- C10: every outcome of `SearchMultipleTypes` — including for an empty
field-type list or when every per-field `Search` fails — carries a nil
error and a non-nil (possibly empty) slice: the error named return is never
assigned and the slice is initialised with `make([]Idgame, 0)`, so total
per-field failure is indistinguishable from an empty match. -/
theorem searchMultipleTypes_nil_error_nonnil_slice (envF : String → SearchEnv)
    (query sorting sortOrder : String) (searchTypes : List String)
    (out : Option (List Idgame) × Option GoError)
    (h : SearchMultipleTypes envF query searchTypes sorting sortOrder out) :
    out.2 = none ∧ out.1 ≠ none := by
  obtain ⟨l, _, hout⟩ := h
  rw [hout]
  exact ⟨rfl, by simp⟩

/-- C10 witness: with every per-field `Search` failing on transport, the
outcome is the non-nil empty slice with a nil error. -/
theorem searchMultipleTypes_nil_error_nonnil_slice_witness :
    SearchMultipleTypes envFAllFail "abc" ["title", "author"] "" ""
      (some [], none)
  ∧ (some ([] : List Idgame), (none : Option GoError)).2 = none
  ∧ (some ([] : List Idgame), (none : Option GoError)).1 ≠ none :=
  ⟨⟨[], by decide, rfl⟩,
    (searchMultipleTypes_nil_error_nonnil_slice envFAllFail "abc" "" ""
      ["title", "author"] (some [], none) ⟨[], by decide, rfl⟩).1,
    (searchMultipleTypes_nil_error_nonnil_slice envFAllFail "abc" "" ""
      ["title", "author"] (some [], none) ⟨[], by decide, rfl⟩).2⟩

/-- C9: in a well-formed browser state, (1) a write by a backfill task bound
to any array other than the current one — in particular a task started for a
superseded request — leaves the currently displayed list unchanged, so stale
backfill writes are never observable in the new list; (2) a new
search/latest result replaces the displayed list with the freshly allocated
one and every previously in-flight task becomes bound to a non-current
array; and (3) both step kinds preserve well-formedness. In the source this
discarding is structural: `updateGameDetails` mutates only the slice it was
handed, and each `UpdateSearch`/`UpdateLatest` hands it, and displays, a
freshly allocated slice. -/
theorem stale_backfill_not_observable (s : BrowserModel) (hwf : BrowserWF s) :
    (∀ (a i : Nat) (g : Idgame), a ≠ s.current →
        currentView (browserStep s (.backfillWrite a i g)) = currentView s)
  ∧ (∀ l : List Idgame,
        currentView (browserStep s (.newResults l)) = l
      ∧ (∀ t ∈ s.tasks, t ≠ (browserStep s (.newResults l)).current)
      ∧ BrowserWF (browserStep s (.newResults l)))
  ∧ (∀ (a i : Nat) (g : Idgame), BrowserWF (browserStep s (.backfillWrite a i g))) := by
  obtain ⟨hcur, htasks⟩ := hwf
  refine ⟨?_, ?_, ?_⟩
  · intro a i g hne
    unfold browserStep currentView
    by_cases hmem : a ∈ s.tasks
    · simp only [hmem, if_true]
      simp only [List.getD_eq_getElem?_getD]
      rw [List.getElem?_set_ne hne]
    · simp only [hmem, if_false]
  · intro l
    refine ⟨?_, ?_, ?_, ?_⟩
    · unfold browserStep currentView
      simp only [List.getD_eq_getElem?_getD]
      rw [List.getElem?_concat_length]
      rfl
    · intro t ht
      unfold browserStep
      exact Nat.ne_of_lt (htasks t ht)
    · unfold browserStep
      simp only [List.length_append, List.length_cons, List.length_nil]
      omega
    · intro t ht
      unfold browserStep at ht ⊢
      simp only [List.mem_append, List.mem_singleton] at ht
      simp only [List.length_append, List.length_cons, List.length_nil]
      rcases ht with ht | ht
      · have := htasks t ht
        omega
      · omega
  · intro a i g
    unfold browserStep
    by_cases hmem : a ∈ s.tasks
    · simp only [hmem, if_true]
      exact ⟨by simpa using hcur, fun t ht => by simpa using htasks t ht⟩
    · simp only [hmem, if_false]
      exact ⟨hcur, htasks⟩

/-- C9 witness: in the two-generation state `browserS0` (old list 0 with a
stale task, current list 1), the statement holds. -/
theorem stale_backfill_not_observable_witness :
    BrowserWF browserS0
  ∧ ((∀ (a i : Nat) (g : Idgame), a ≠ browserS0.current →
        currentView (browserStep browserS0 (.backfillWrite a i g)) =
          currentView browserS0)
    ∧ (∀ l : List Idgame,
          currentView (browserStep browserS0 (.newResults l)) = l
        ∧ (∀ t ∈ browserS0.tasks, t ≠ (browserStep browserS0 (.newResults l)).current)
        ∧ BrowserWF (browserStep browserS0 (.newResults l)))
    ∧ (∀ (a i : Nat) (g : Idgame),
          BrowserWF (browserStep browserS0 (.backfillWrite a i g)))) :=
  ⟨⟨by decide, by decide⟩,
    stale_backfill_not_observable browserS0 ⟨by decide, by decide⟩⟩

end Goidgames
